import Mathlib

/-!
# Verification of the llm-maps-open-webui gateway and map-rendering layer

Shallow embedding of the repository's TypeScript map utilities
(`src/lib/utils/maps.ts`, reproduced in the repository transcript), the
Svelte place-results / map-embed / maps-renderer components, and — for the
backend gateway components that are documented but whose FastAPI sources are
not part of the repository snapshot — models built from the specification
(rate limiter, circuit breaker, pipeline ordering), each marked
`Modelled from the spec:` in its doc comment.

JavaScript numbers are embedded as `JsNum`: exact rationals extended with
`NaN` and the two infinities.  JavaScript exceptions are embedded as
`Except`/`Option` results.
-/

namespace MapsGateway

/-- Embedding of a JavaScript `number`: an exact rational, `NaN`, or an
infinity.  (Double rounding is not modelled; the properties verified here
concern the exact decimal arithmetic of the source.) -/
inductive JsNum where
  | nan
  | posInf
  | negInf
  | num (q : ℚ)
deriving DecidableEq

namespace JsNum

/-- JavaScript `<=` on numbers: any comparison with `NaN` is false. -/
def jsLe : JsNum → JsNum → Bool
  | nan, _ => false
  | _, nan => false
  | negInf, _ => true
  | _, negInf => false
  | _, posInf => true
  | posInf, _ => false
  | num a, num b => a ≤ b

/-- JavaScript `isNaN` on a number. -/
def isNaN : JsNum → Bool
  | nan => true
  | _ => false

/-- JavaScript truthiness of a number: `0` and `NaN` are falsy. -/
def jsTruthy : JsNum → Bool
  | nan => false
  | num q => q ≠ 0
  | _ => true

end JsNum

open JsNum

/-- Embedding of `validateCoordinates` (maps.ts):
`typeof lat === 'number' && typeof lng === 'number' && lat >= -90 && lat <= 90
&& lng >= -180 && lng <= 180 && !isNaN(lat) && !isNaN(lng)`.
The `typeof` guards hold by typing in the embedding. -/
def validateCoordinates (lat lng : JsNum) : Bool :=
  jsLe (num (-90)) lat && jsLe lat (num 90) &&
  jsLe (num (-180)) lng && jsLe lng (num 180) &&
  !lat.isNaN && !lng.isNaN

/-- Model of the JavaScript `String.prototype.toLowerCase` primitive
(ASCII range, which covers every string the validators compare against). -/
def lowerChar (c : Char) : Char :=
  if 65 ≤ c.toNat ∧ c.toNat ≤ 90 then Char.ofNat (c.toNat + 32) else c

/-- Model of `toLowerCase` on a whole string. -/
def jsToLower (s : String) : String :=
  ⟨s.data.map lowerChar⟩

/-- Embedding of `validateTravelMode` (maps.ts):
`['driving', 'walking', 'transit', 'bicycling'].includes(mode.toLowerCase())`. -/
def validateTravelMode (mode : String) : Bool :=
  (["driving", "walking", "transit", "bicycling"]).contains (jsToLower mode)

/-- Whitespace test used by the model of JavaScript
`String.prototype.trim`. -/
def isWs (c : Char) : Bool :=
  c = ' ' || c = '\t' || c = '\n' || c = '\r'

/-- Trim on a character list: drop whitespace from both ends. -/
def trimChars (l : List Char) : List Char :=
  ((l.dropWhile isWs).reverse.dropWhile isWs).reverse

/-- Model of the JavaScript `String.prototype.trim` primitive. -/
def jsTrim (s : String) : String :=
  ⟨trimChars s.data⟩

/-- A place entry as consumed by `PlaceResults.svelte`:
`{name, address, lat: number|null, lng: number|null, place_id?, rating?,
open_now?, maps_url?}`. -/
structure Place where
  name : String
  address : String
  lat : Option JsNum
  lng : Option JsNum
  place_id : Option String := none
  rating : Option JsNum := none
  open_now : Option Bool := none
  maps_url : Option String := none
deriving DecidableEq

/-- Embedding of the `validPlaces` filter (PlaceResults.svelte):
`place.name && place.address && place.name.trim() !== '' &&
place.address.trim() !== ''` (an empty string is falsy). -/
def validPlaces (places : List Place) : List Place :=
  places.filter fun place =>
    place.name ≠ "" && place.address ≠ "" &&
    jsTrim place.name ≠ "" && jsTrim place.address ≠ ""

/-- Embedding of `hasValidLocation` (PlaceResults.svelte):
`place.lat !== null && place.lng !== null &&
validateCoordinates(place.lat, place.lng)`. -/
def hasValidLocation (place : Place) : Bool :=
  match place.lat, place.lng with
  | some la, some ln => validateCoordinates la ln
  | _, _ => false

/-- Embedding of the `placesWithCoords` filter (PlaceResults.svelte). -/
def placesWithCoords (places : List Place) : List Place :=
  (validPlaces places).filter hasValidLocation

/-- The location line rendered on each place card: coordinates when
`hasValidLocation`, otherwise the "Location data unavailable" indicator
(PlaceResults.svelte template, coordinates-display block). -/
inductive LocationBadge where
  | coords
  | unavailable
deriving DecidableEq

/-- Which location badge the card of a displayed place shows. -/
def displayBadge (place : Place) : LocationBadge :=
  if hasValidLocation place then .coords else .unavailable

/-- Modelled from the spec: the `find_places` backend normalization
(FastAPI agent; the backend sources are not part of the repository
snapshot).  Per §3, every coordinate pair, when present, must satisfy the
latitude/longitude ranges, and entries failing this are dropped from the
result rather than propagated. -/
def findPlacesDrop (places : List Place) : List Place :=
  places.filter fun place =>
    match place.lat, place.lng with
    | some la, some ln => validateCoordinates la ln
    | _, _ => true

/-- Decimal digit character for a digit value below ten. -/
def digitChar (d : Nat) : Char :=
  Char.ofNat (48 + d)

/-- Decimal rendering of a natural number as characters (most significant
digit first), the core of the JavaScript number-to-string primitives. -/
def natToChars (n : Nat) : List Char :=
  if n = 0 then ['0'] else ((Nat.digits 10 n).map digitChar).reverse

/-- Model of `Number.prototype.toString` for the values the embed component
supplies (integral zoom levels); non-integral and non-finite values are
rendered with JavaScript's special spellings or an unspecified decimal. -/
def jsNumToString : JsNum → String
  | .nan => "NaN"
  | .posInf => "Infinity"
  | .negInf => "-Infinity"
  | .num q =>
    if q < 0 then ⟨'-' :: natToChars q.num.natAbs⟩
    else if q.den = 1 then ⟨natToChars q.num.natAbs⟩
    else ⟨natToChars q.num.natAbs⟩

/-- Uppercase hexadecimal digit, as used by percent-encoding. -/
def hexChar (n : Nat) : Char :=
  if n < 10 then Char.ofNat (48 + n) else Char.ofNat (55 + n)

/-- UTF-8 bytes of a code point, for the percent-encoding model. -/
def utf8Bytes (n : Nat) : List Nat :=
  if n < 128 then [n]
  else if n < 2048 then [192 + n / 64, 128 + n % 64]
  else if n < 65536 then [224 + n / 4096, 128 + (n / 64) % 64, 128 + n % 64]
  else [240 + n / 262144, 128 + (n / 4096) % 64, 128 + (n / 64) % 64,
        128 + n % 64]

/-- Model of the `application/x-www-form-urlencoded` character encoding
used by `URLSearchParams.toString()`: alphanumerics and `*-._` unchanged,
space as `+`, everything else percent-encoded UTF-8. -/
def encodeFormChar (c : Char) : List Char :=
  if c.isAlphanum || c = '*' || c = '-' || c = '.' || c = '_' then [c]
  else if c = ' ' then ['+']
  else ((utf8Bytes c.toNat).map fun b =>
    ['%', hexChar (b / 16), hexChar (b % 16)]).flatten

/-- Form-urlencode a whole string. -/
def encodeForm (s : String) : String :=
  ⟨(s.data.map encodeFormChar).flatten⟩

/-- Model of `URLSearchParams.set`: overwrite the value when the name is
already present, otherwise append. -/
def setParam (ps : List (String × String)) (k v : String) :
    List (String × String) :=
  if ps.any fun kv => kv.1 = k then
    ps.map fun kv => if kv.1 = k then (k, v) else kv
  else ps ++ [(k, v)]

/-- Model of `URLSearchParams.toString()`: `&`-joined `name=value` pairs in
insertion order, form-urlencoded. -/
def serializeParams (ps : List (String × String)) : String :=
  String.intercalate "&" (ps.map fun kv => encodeForm kv.1 ++ "=" ++ encodeForm kv.2)

/-- JavaScript truthiness of an optional string prop: absent and `''` are
falsy. -/
def optTruthy : Option String → Bool
  | some s => s ≠ ""
  | none => false

/-- JavaScript truthiness of an optional number prop: absent, `0` and `NaN`
are falsy. -/
def optNumTruthy : Option JsNum → Bool
  | some v => v.jsTruthy
  | none => false

/-- The `params` record accepted by `generateEmbedUrl` (maps.ts): all
fields optional; `maptype` is restricted by typing in the source but its
value is irrelevant here. -/
structure EmbedParams where
  placeId : Option String := none
  query : Option String := none
  origin : Option String := none
  destination : Option String := none
  center : Option String := none
  zoom : Option JsNum := none
  maptype : Option String := none
  language : Option String := none
  region : Option String := none
deriving DecidableEq

/-- The `urlParams` value after the key and common parameters have been
set (generateEmbedUrl, maps.ts: `urlParams.set('key', apiKey)` followed by
the three `if (params.…)` common-parameter blocks). -/
def commonParams (apiKey : String) (params : EmbedParams) :
    List (String × String) :=
  let ps := setParam [] "key" apiKey
  let ps := if optTruthy params.maptype then
      setParam ps "maptype" (params.maptype.getD "") else ps
  let ps := if optTruthy params.language then
      setParam ps "language" (params.language.getD "") else ps
  if optTruthy params.region then
    setParam ps "region" (params.region.getD "") else ps

/-- Embedding of `generateEmbedUrl` (maps.ts).  A thrown `Error` is an
`Except.error` carrying the message; `mode` is a plain string so that the
`default: throw` arm of the source's `switch` is reachable, as in the
untyped JavaScript semantics. -/
def generateEmbedUrl (apiKey : String) (mode : String)
    (params : EmbedParams) : Except String String :=
  if apiKey = "" then .error "API key is required for embed URLs"
  else
    let ps := commonParams apiKey params
    let modePs : Except String (List (String × String)) :=
      if mode = "place" then
        if !optTruthy params.placeId && !optTruthy params.query then
          .error "Either placeId or query is required for place mode"
        else if optTruthy params.placeId then
          .ok (setParam ps "q" ("place_id:" ++ params.placeId.getD ""))
        else
          .ok (setParam ps "q" (params.query.getD ""))
      else if mode = "search" then
        if !optTruthy params.query then
          .error "Query is required for search mode"
        else .ok (setParam ps "q" (params.query.getD ""))
      else if mode = "directions" then
        if !optTruthy params.origin || !optTruthy params.destination then
          .error "Both origin and destination are required for directions mode"
        else
          .ok (setParam
            (setParam ps "origin" (params.origin.getD ""))
            "destination" (params.destination.getD ""))
      else if mode = "view" then
        let ps := if optTruthy params.center then
            setParam ps "center" (params.center.getD "") else ps
        let ps := if optNumTruthy params.zoom then
            setParam ps "zoom" (jsNumToString (params.zoom.getD (.num 0)))
          else ps
        .ok ps
      else .error ("Unsupported embed mode: " ++ mode)
    match modePs with
    | .error e => .error e
    | .ok ps => .ok ("https://www.google.com/maps/embed/v1/" ++ mode ++ "?"
        ++ serializeParams ps)

/-- Model of the JavaScript `String.prototype.split` primitive for a
single-character separator, on character lists. -/
def splitOnChar (sep : Char) : List Char → List (List Char)
  | [] => [[]]
  | c :: cs =>
    if c = sep then [] :: splitOnChar sep cs
    else
      match splitOnChar sep cs with
      | [] => [[c]]
      | p :: ps => (c :: p) :: ps

/-- Decimal digit value of a character, `none` for non-digits. -/
def charDigit? (c : Char) : Option Nat :=
  if 48 ≤ c.toNat ∧ c.toNat ≤ 57 then some (c.toNat - 48) else none

/-- Parse a non-empty all-digit character list as a natural number. -/
def parseDigits (l : List Char) : Option Nat :=
  if l.isEmpty then none
  else if l.all fun c => (charDigit? c).isSome then
    some (Nat.ofDigits 10 ((l.map fun c => (charDigit? c).getD 0).reverse))
  else none

/-- Parse an unsigned plain decimal (`digits` or `digits.digits`) as an
exact rational. -/
def parseUnsignedQ (l : List Char) : Option ℚ :=
  match splitOnChar '.' l with
  | [ip] => (parseDigits ip).map fun n => (n : ℚ)
  | [ip, fp] =>
    match parseDigits ip, parseDigits fp with
    | some i, some f => some ((i : ℚ) + (f : ℚ) / (10 : ℚ) ^ fp.length)
    | _, _ => none
  | _ => none

/-- Model of the JavaScript `parseFloat` primitive, restricted to the
plain signed decimal grammar (the only shape `formatCoordinates`
produces); anything else yields `NaN`, as `parseFloat` does on
non-numeric input. -/
def parseFloatQ (s : String) : JsNum :=
  match s.data with
  | '-' :: rest =>
    match parseUnsignedQ rest with
    | some q => .num (-q)
    | none => .nan
  | l =>
    match parseUnsignedQ l with
    | some q => .num q
    | none => .nan

/-- Left-pad a digit string with zeros to a given width. -/
def padLeftZeros (k : Nat) (l : List Char) : List Char :=
  List.replicate (k - l.length) '0' ++ l

/-- Round half away from zero at six decimals, applied to a magnitude:
the integer `toFixed(6)` works with. -/
def round6 (x : ℚ) : ℤ := ⌊x * 1000000 + 1 / 2⌋

/-- Characters of `q.toFixed(6)`: per the ECMAScript algorithm the sign is
split off first, and the magnitude is rendered from the nearest-integer
scaled value with exactly six fractional digits. -/
def fixed6Chars (q : ℚ) : List Char :=
  let m := (round6 |q|).toNat
  let body := natToChars (m / 1000000) ++
    '.' :: padLeftZeros 6 (natToChars (m % 1000000))
  if q < 0 then '-' :: body else body

/-- Model of the JavaScript `Number.prototype.toFixed(6)` primitive on the
`JsNum` domain (exact decimal arithmetic; double rounding not modelled). -/
def jsToFixed6 : JsNum → String
  | .nan => "NaN"
  | .posInf => "Infinity"
  | .negInf => "-Infinity"
  | .num q => ⟨fixed6Chars q⟩

/-- The exact rational value denoted by `q.toFixed(6)`. -/
def toFixed6Val (q : ℚ) : ℚ :=
  if q < 0 then -((round6 |q| : ℚ) / 1000000)
  else (round6 |q| : ℚ) / 1000000

/-- Embedding of `formatCoordinates` (maps.ts): throws on invalid
coordinates, otherwise returns `lat.toFixed(6) + "," + lng.toFixed(6)`. -/
def formatCoordinates (lat lng : JsNum) : Except String String :=
  if !validateCoordinates lat lng then .error "Invalid coordinates"
  else .ok (jsToFixed6 lat ++ "," ++ jsToFixed6 lng)

/-- Embedding of `parseCoordinates` (maps.ts): split on commas, parse each
trimmed part with `parseFloat`, require exactly two non-NaN parts, then
re-validate the ranges. -/
def parseCoordinates (s : String) : Option (JsNum × JsNum) :=
  if s = "" then none
  else
    let parts := (splitOnChar ',' s.data).map fun cs =>
      parseFloatQ (jsTrim ⟨cs⟩)
    match parts with
    | [la, ln] =>
      if la.isNaN || ln.isNaN then none
      else if !validateCoordinates la ln then none
      else some (la, ln)
    | _ => none

/-- Whether the first list is a prefix of the second. -/
def startsChars : List Char → List Char → Bool
  | [], _ => true
  | _ :: _, [] => false
  | a :: as, b :: bs => a = b && startsChars as bs

/-- Whether the needle occurs contiguously inside the haystack. -/
def containsChars (needle : List Char) : List Char → Bool
  | [] => needle.isEmpty
  | c :: t => startsChars needle (c :: t) || containsChars needle t

/-- Embedding of a parsed JavaScript/JSON value as manipulated by the
maps-renderer component (`undefined` is the result of reading a missing
property). -/
inductive JsValue where
  | undefined
  | null
  | bool (b : Bool)
  | numb (q : ℚ)
  | str (s : String)
  | arr (elems : List JsValue)
  | obj (fields : List (String × JsValue))

/-- JavaScript falsiness of a value (`!v`). -/
def jsFalsy : JsValue → Bool
  | .undefined => true
  | .null => true
  | .bool b => !b
  | .numb q => q = 0
  | .str s => s = ""
  | .arr _ => false
  | .obj _ => false

/-- Property read `v[name]`: the field's value on an object, `undefined`
otherwise (the renderer only reads properties after truthiness guards, so
the null/undefined `TypeError` cases are unreachable). -/
def getField (v : JsValue) (name : String) : JsValue :=
  match v with
  | .obj fields => ((fields.lookup name).getD .undefined)
  | _ => .undefined

/-- Property write `v[name] = x` on an object (the renderer's
normalization assignments only ever target objects). -/
def setField (v : JsValue) (name : String) (x : JsValue) : JsValue :=
  match v with
  | .obj fields =>
    if fields.any fun kv => kv.1 = name then
      .obj (fields.map fun kv => if kv.1 = name then (name, x) else kv)
    else .obj (fields ++ [(name, x)])
  | _ => v

/-- `Array.isArray`. -/
def isArr : JsValue → Bool
  | .arr _ => true
  | _ => false

/-- JavaScript `a || b` on values. -/
def jsOrVal (a b : JsValue) : JsValue :=
  if jsFalsy a then b else a

/-- Embedding of `validateMapsData` (MapsRenderer, enhanced version in the
repository snapshot): throws (`Except.error`) on an empty data object, a
missing/falsy `action`, or an action-specific structural failure; the
`type` check and the unknown-action arm only warn; the alternative
structures are normalized into `data.data`. -/
def validateMapsData (d : JsValue) : Except String JsValue :=
  if jsFalsy d then .error "Empty data object"
  else if jsFalsy (getField d "action") then
    .error "Maps data missing action field"
  else
    match getField d "action" with
    | .str "find_places" =>
      if jsFalsy (getField d "data")
          || !isArr (getField (getField d "data") "places") then
        if !isArr (getField d "places") then
          .error "Invalid find_places data structure - missing places array"
        else
          .ok (setField d "data" (.obj [("places", getField d "places")]))
      else .ok d
    | .str "get_directions" =>
      if jsFalsy (getField d "data") then
        if jsFalsy (jsOrVal (getField d "route") (getField d "directions")) then
          .error "Invalid get_directions data structure - missing route data"
        else
          .ok (setField d "data"
            (.obj [("route", jsOrVal (getField d "route") (getField d "directions"))]))
      else .ok d
    | .str "place_details" =>
      if jsFalsy (getField d "data") then
        if jsFalsy (jsOrVal (getField d "place_details") (getField d "details")) then
          .error "Invalid place_details data structure - missing details data"
        else
          .ok (setField d "data"
            (.obj [("place_details",
              jsOrVal (getField d "place_details") (getField d "details"))]))
      else .ok d
    | _ => .ok d

/-- One parse attempt of the renderer: `JSON.parse` (an oracle `parse`,
`none` standing for a thrown `SyntaxError`) followed by
`validateMapsData`; any throw is caught by the attempt's `catch`, which
clears `mapsData` and falls through to the next method. -/
def tryParse (parse : String → Option JsValue) (s : String) :
    Option JsValue :=
  match parse s with
  | some v =>
    match validateMapsData v with
    | .ok v' => some v'
    | .error _ => none
  | none => none

/-- What the maps renderer displays for a token text. -/
inductive RenderOutcome where
  | payload (d : JsValue)
  | errorCard (msg : String)
  | noData

/-- Whether the renderer produced a parsed payload or an error card (as
opposed to the neutral no-data card). -/
def isHandled : RenderOutcome → Bool
  | .payload _ => true
  | .errorCard _ => true
  | .noData => false

/-- Opening curly brace. -/
def curlyOpen : Char := Char.ofNat 123

/-- Closing curly brace. -/
def curlyClose : Char := Char.ofNat 125

/-- Embedding of the maps renderer's reactive parse block (enhanced
MapsRenderer in the repository snapshot): guarded by `if (token?.text)`,
it tries the `<maps_response>` wrapper match (`htmlMatch` oracle for the
regex), then direct JSON when the trimmed text is brace-delimited, then a
brace-to-brace regex search (`jsonMatch` oracle); if every attempt fails
it sets the error message rendered as the error card, and when the guard
skips (empty text) the template's fallback "No maps data to display" card
shows. -/
def renderMapsToken (parse : String → Option JsValue)
    (htmlMatch jsonMatch : String → Option String) (text : String) :
    RenderOutcome :=
  if text = "" then .noData
  else
    let m1 : Option JsValue :=
      match htmlMatch text with
      | some inner => tryParse parse inner
      | none => none
    let m2 : Option JsValue :=
      match m1 with
      | some v => some v
      | none =>
        let t := jsTrim text
        if (match t.data with
            | c :: _ => c = curlyOpen
            | [] => false) &&
           (match t.data.getLast? with
            | some c => c = curlyClose
            | none => false) then
          tryParse parse t
        else none
    let m3 : Option JsValue :=
      match m2 with
      | some v => some v
      | none =>
        match jsonMatch text with
        | some j => tryParse parse j
        | none => none
    match m3 with
    | some v => .payload v
    | none => .errorCard "Unable to parse maps response from any format"

/-- The stubbed-upstream place with valid coordinates from the spec's
`find_places` scenario (§8). -/
def stubGoodPlace : Place :=
  { name := "Sushi Sen", address := "Senayan, Jakarta",
    lat := some (.num (-6)), lng := some (.num 107) }

/-- The stubbed-upstream place with `lat = 999` from the spec's
`find_places` scenario (§8). -/
def stubBadPlace : Place :=
  { name := "Bad Sushi", address := "Nowhere, Jakarta",
    lat := some (.num 999), lng := some (.num 107) }

/-- Per-window admission ceilings of the rate limiter (configuration
surface, spec §6). -/
structure RateLimitConfig where
  perMinute : Nat
  perHour : Nat
  perDay : Nat
deriving DecidableEq

/-- Which of the three windows triggered a denial. -/
inductive WindowScope where
  | minute
  | hour
  | day
deriving DecidableEq

/-- Result of `admitRequest(identity)`: `Allowed` or `Denied{retry_after, scope}`
(spec §4.2). -/
inductive RateDecision where
  | allowed
  | denied (scope : WindowScope) (retryAfter : Nat)
deriving DecidableEq

/-- In-memory per-identity event log of admitted request timestamps
(seconds); identities with no prior traffic have an empty log. -/
def RateLimitLog : Type := String → List Nat

/-- Length of the minute window in seconds. -/
def minuteWindow : Nat := 60

/-- Length of the hour window in seconds. -/
def hourWindow : Nat := 3600

/-- Length of the day window in seconds. -/
def dayWindow : Nat := 86400

/-- Number of admitted events still inside a window (entries older than
the window length are lazily ignored, spec §3). -/
def countIn (events : List Nat) (now win : Nat) : Nat :=
  (events.filter fun s => now < s + win).length

/-- Seconds until the window that triggered a denial frees capacity: the
oldest in-window event plus the window length, relative to now. -/
def retryAfterIn (events : List Nat) (now win : Nat) : Nat :=
  match (events.filter fun s => now < s + win).min? with
  | some s => s + win - now
  | none => win

/-- Modelled from the spec: rate-limiter admission (spec §4.2; the FastAPI
backend sources are not part of the repository snapshot).  Three
independent windows per identity; a request is denied if any window is at
capacity, reporting the triggering window and the time until it frees
capacity; an admitted request is recorded atomically. -/
def admitRequest (cfg : RateLimitConfig) (log : RateLimitLog) (id : String)
    (now : Nat) : RateDecision × RateLimitLog :=
  let evs := log id
  if cfg.perMinute ≤ countIn evs now minuteWindow then
    (.denied .minute (retryAfterIn evs now minuteWindow), log)
  else if cfg.perHour ≤ countIn evs now hourWindow then
    (.denied .hour (retryAfterIn evs now hourWindow), log)
  else if cfg.perDay ≤ countIn evs now dayWindow then
    (.denied .day (retryAfterIn evs now dayWindow), log)
  else (.allowed, Function.update log id (now :: evs))

/-- The fresh state: no identity has prior traffic. -/
def emptyLog : RateLimitLog := fun _ => []

/-- Run `n` consecutive requests from one identity at one instant,
reporting whether every one of them was admitted. -/
def admitRun (cfg : RateLimitConfig) (id : String) (t : Nat) :
    Nat → RateLimitLog → Bool × RateLimitLog
  | 0, log => (true, log)
  | n + 1, log =>
    match admitRequest cfg log id t with
    | (.allowed, log') => admitRun cfg id t n log'
    | (.denied _ _, log') => (false, log')

/-- Circuit-breaker status (spec §3 `CircuitState`). -/
inductive CircuitStatus where
  | closed
  | opened
  | halfOpen
deriving DecidableEq

/-- The circuit breaker's single state record per upstream dependency. -/
structure CircuitBreaker where
  status : CircuitStatus
  consecutiveFailures : Nat
  openedAt : Option Nat
  trialInFlight : Bool
deriving DecidableEq

/-- Circuit-breaker configuration: failure threshold and recovery
timeout (spec §6). -/
structure CircuitConfig where
  failureThreshold : Nat
  recoveryTimeout : Nat
deriving DecidableEq

/-- What the breaker decides for an arriving call. -/
inductive CallDecision where
  | proceed (isTrial : Bool)
  | rejectOpen
deriving DecidableEq

/-- The breaker's initial state: CLOSED, no failures. -/
def initialBreaker : CircuitBreaker :=
  { status := .closed, consecutiveFailures := 0, openedAt := none,
    trialInFlight := false }

/-- Modelled from the spec: the breaker's gate consulted before each call
(spec §4.3; the FastAPI backend sources are not part of the repository
snapshot).  CLOSED passes calls through; OPEN rejects until the recovery
timeout has elapsed since `opened_at`, then admits the next call as the
single trial (the state becoming HALF_OPEN with `trial_in_flight` set, in
one atomic step); HALF_OPEN rejects while a trial is outstanding. -/
def beforeCall (cfg : CircuitConfig) (cb : CircuitBreaker) (now : Nat) :
    CallDecision × CircuitBreaker :=
  match cb.status with
  | .closed => (.proceed false, cb)
  | .opened =>
    match cb.openedAt with
    | some s =>
      if s + cfg.recoveryTimeout ≤ now then
        (.proceed true,
          { cb with status := .halfOpen, trialInFlight := true })
      else (.rejectOpen, cb)
    | none => (.rejectOpen, cb)
  | .halfOpen =>
    if cb.trialInFlight then (.rejectOpen, cb)
    else (.proceed true, { cb with trialInFlight := true })

/-- Modelled from the spec: outcome bookkeeping on a successful call
(spec §4.3): any success while CLOSED resets `consecutive_failures`; a
trial success while HALF_OPEN returns the breaker to CLOSED with counters
reset. -/
def onSuccess (cb : CircuitBreaker) : CircuitBreaker :=
  match cb.status with
  | .halfOpen =>
    { status := .closed, consecutiveFailures := 0, openedAt := none,
      trialInFlight := false }
  | _ => { cb with consecutiveFailures := 0 }

/-- Modelled from the spec: outcome bookkeeping on a failed call
(spec §4.3): while CLOSED each failure increments `consecutive_failures`
and reaching the threshold opens the breaker with `opened_at = now`; a
trial failure while HALF_OPEN reopens it with a fresh `opened_at`. -/
def onFailure (cfg : CircuitConfig) (cb : CircuitBreaker) (now : Nat) :
    CircuitBreaker :=
  match cb.status with
  | .halfOpen =>
    { status := .opened, consecutiveFailures := cb.consecutiveFailures + 1,
      openedAt := some now, trialInFlight := false }
  | .closed =>
    if cfg.failureThreshold ≤ cb.consecutiveFailures + 1 then
      { status := .opened, consecutiveFailures := cb.consecutiveFailures + 1,
        openedAt := some now, trialInFlight := false }
    else { cb with consecutiveFailures := cb.consecutiveFailures + 1 }
  | .opened => { cb with consecutiveFailures := cb.consecutiveFailures + 1 }

/-- Execute one guarded call: the gate, then (only when admitted) the
upstream attempt and its bookkeeping.  Returns the new state, the number
of upstream network attempts made (0 or 1), and whether the call was
served. -/
def runCall (cfg : CircuitConfig) (cb : CircuitBreaker) (now : Nat)
    (upstreamOk : Bool) : CircuitBreaker × Nat × Bool :=
  match beforeCall cfg cb now with
  | (.rejectOpen, cb') => (cb', 0, false)
  | (.proceed _, cb') =>
    if upstreamOk then (onSuccess cb', 1, true)
    else (onFailure cfg cb' now, 1, false)

/-- Apply `n` consecutive upstream failures at time `t`. -/
def failN (cfg : CircuitConfig) (t : Nat) :
    Nat → CircuitBreaker → CircuitBreaker
  | 0, cb => cb
  | n + 1, cb => failN cfg t n (onFailure cfg cb t)

end MapsGateway

namespace MapsGateway

/-- Outcome of a `get_directions` tool invocation, paired below with the
number of upstream calls attempted. -/
inductive DirectionsOutcome where
  | validationError (field : String) (reason : String)
  | upstreamInvoked (origin destination mode : String)
deriving DecidableEq

/-- Modelled from the spec: the gateway pipeline for `get_directions`
(FastAPI agent; the backend sources are not part of the repository
snapshot).  Per §4.6/§8, parameters pass through the validator first and a
validation rejection short-circuits the rest of the pipeline, so no
upstream call is attempted; the travel-mode rule is the allow-list embodied
in `validateTravelMode`.  The second component counts upstream calls. -/
def getDirectionsPipeline (origin destination mode : String) :
    DirectionsOutcome × Nat :=
  if validateTravelMode mode then
    (.upstreamInvoked origin destination mode, 1)
  else
    (.validationError "travel_mode" "invalid enum value", 0)

/-- C3: travel-mode validation accepts `m` iff the lowercase of `m` is one
of exactly driving / walking / bicycling / transit; `"zigzag"` fails
validation, and a `get_directions` call with `mode="zigzag"` is rejected by
the validator with zero upstream calls attempted. -/
theorem validateTravelMode_iff_and_zigzag :
    (∀ m : String, validateTravelMode m = true ↔
      (jsToLower m = "driving" ∨ jsToLower m = "walking" ∨
       jsToLower m = "bicycling" ∨ jsToLower m = "transit")) ∧
    validateTravelMode "zigzag" = false ∧
    getDirectionsPipeline "A" "B" "zigzag" =
      (.validationError "travel_mode" "invalid enum value", 0) := by
  refine ⟨fun m => ?_, by decide, by decide⟩
  simp only [validateTravelMode, List.contains, List.elem_eq_mem,
    decide_eq_true_eq, List.mem_cons, List.not_mem_nil, or_false]
  tauto

/-- C4: `validateCoordinates lat lng` returns `true` iff both arguments are
non-NaN (finite) numbers with `-90 ≤ lat ≤ 90` and `-180 ≤ lng ≤ 180`. -/
theorem validateCoordinates_iff (lat lng : JsNum) :
    validateCoordinates lat lng = true ↔
      ∃ a b : ℚ, lat = JsNum.num a ∧ lng = JsNum.num b ∧
        -90 ≤ a ∧ a ≤ 90 ∧ -180 ≤ b ∧ b ≤ 180 := by
  cases lat <;> cases lng <;>
    simp [validateCoordinates, JsNum.jsLe, JsNum.isNaN, and_assoc]

/-- C1: every entry surviving the `find_places` drop (spec-modelled) that
reaches the place-results rendering has valid coordinates whenever
coordinates are present, and for the spec's two-place stub (one place with
`lat = 999`) exactly the place with valid coordinates survives and is
displayed. -/
theorem findPlaces_drops_invalid_coordinates :
    (∀ (places : List Place) (p : Place),
        p ∈ validPlaces (findPlacesDrop places) →
        ∀ la ln, p.lat = some la → p.lng = some ln →
          validateCoordinates la ln = true) ∧
    findPlacesDrop [stubGoodPlace, stubBadPlace] = [stubGoodPlace] ∧
    validPlaces (findPlacesDrop [stubGoodPlace, stubBadPlace]) =
      [stubGoodPlace] := by
  refine ⟨fun places p hp la ln hla hln => ?_, by decide, by decide⟩
  have hp' : p ∈ findPlacesDrop places := List.mem_of_mem_filter hp
  have hcond := List.of_mem_filter hp'
  simpa [hla, hln] using hcond

/-- C1 witness: instantiating the drop invariant at the spec's stub input
shows the surviving place's coordinates pass validation. -/
theorem findPlaces_drops_invalid_coordinates_witness :
    validateCoordinates (.num (-6)) (.num 107) = true :=
  findPlaces_drops_invalid_coordinates.1 [stubGoodPlace, stubBadPlace]
    stubGoodPlace (by decide) _ _ rfl rfl

/-- C10: every displayed place entry (an entry of `validPlaces`) has a
non-empty trimmed name and a non-empty trimmed address, while an entry that
passes the name/address check but fails only the coordinate check is still
displayed and its card carries the "location data unavailable" badge. -/
theorem placeResults_display_invariant :
    (∀ (places : List Place) (p : Place),
        p ∈ validPlaces places →
        jsTrim p.name ≠ "" ∧ jsTrim p.address ≠ "") ∧
    (∀ (places : List Place) (p : Place),
        p ∈ places →
        (p.name ≠ "" ∧ p.address ≠ "" ∧
         jsTrim p.name ≠ "" ∧ jsTrim p.address ≠ "") →
        hasValidLocation p = false →
        p ∈ validPlaces places ∧ displayBadge p = .unavailable) := by
  constructor
  · intro places p hp
    have hcond := List.of_mem_filter hp
    simp only [Bool.and_eq_true, ne_eq, decide_eq_true_eq] at hcond
    exact ⟨hcond.1.2, hcond.2⟩
  · intro places p hp hgood hbad
    refine ⟨List.mem_filter.mpr ⟨hp, ?_⟩, ?_⟩
    · simp only [Bool.and_eq_true, ne_eq, decide_eq_true_eq]
      exact ⟨⟨⟨hgood.1, hgood.2.1⟩, hgood.2.2.1⟩, hgood.2.2.2⟩
    · simp [displayBadge, hbad]

/-- C9: `generateEmbedUrl` throws exactly when the API key is empty, when
`place` mode has neither a (non-empty) placeId nor query, when `search`
mode lacks a query, when `directions` mode lacks an origin or destination,
or when the mode is unrecognized; `view` mode never fails beyond the
API-key check. -/
theorem generateEmbedUrl_ok_iff (apiKey mode : String)
    (params : EmbedParams) :
    (generateEmbedUrl apiKey mode params).isOk = true ↔
      (apiKey ≠ "" ∧
       ((mode = "place" ∧
          (optTruthy params.placeId = true ∨ optTruthy params.query = true)) ∨
        (mode = "search" ∧ optTruthy params.query = true) ∨
        (mode = "directions" ∧ optTruthy params.origin = true ∧
          optTruthy params.destination = true) ∨
        mode = "view")) := by
  unfold generateEmbedUrl
  split_ifs <;> simp_all [Except.isOk, Except.toBool]
  intro hA
  rcases ‹_ = false ∨ _ = false› with h | h
  · simp [hA] at h
  · exact h

/-- C9 witness: with a key supplied, `search` mode without a query throws
while `view` mode succeeds. -/
theorem generateEmbedUrl_ok_iff_witness :
    (generateEmbedUrl "k" "search" {}).isOk = false ∧
    (generateEmbedUrl "k" "view" {}).isOk = true := by
  constructor
  · have h := (generateEmbedUrl_ok_iff "k" "search" {}).not
    simp only [Bool.not_eq_true] at h
    apply h.mpr
    decide
  · exact (generateEmbedUrl_ok_iff "k" "view" {}).mpr (by decide)

/-- C2 (code bug evidence): the generated map-embed URL handed to the
browser iframe contains the upstream API credential verbatim as its `key`
query parameter, contradicting the claim (and the repository's own
architecture document, "Google API key only in FastAPI service (never
exposed)"). -/
theorem embedUrl_contains_credential :
    generateEmbedUrl "AIzaSyTESTSECRET123" "view" {} =
      .ok "https://www.google.com/maps/embed/v1/view?key=AIzaSyTESTSECRET123"
    ∧ containsChars ("AIzaSyTESTSECRET123").data
        ("https://www.google.com/maps/embed/v1/view?key=AIzaSyTESTSECRET123").data
        = true := by
  exact ⟨rfl, by decide⟩

/-- C7 (amended): for every non-empty token text — malformed, non-JSON or
schema-violating alike — and every behavior of the JSON-parse and regex
primitives, the renderer's parse-and-validate step raises no uncaught
exception and yields either a parsed maps payload or the error card, so
the enclosing chat interaction never fails. -/
theorem mapsRenderer_total (parse : String → Option JsValue)
    (hm jm : String → Option String) (text : String) (hne : text ≠ "") :
    isHandled (renderMapsToken parse hm jm text) = true := by
  unfold renderMapsToken
  simp only [if_neg hne]
  split <;> rfl

/-- C7 witness: a plain non-JSON text with parsing primitives that find
nothing still produces a handled outcome (the error card). -/
theorem mapsRenderer_total_witness :
    isHandled (renderMapsToken (fun _ => none) (fun _ => none)
      (fun _ => none) "hello") = true :=
  mapsRenderer_total (fun _ => none) (fun _ => none) (fun _ => none)
    "hello" (by decide)

/-- C7 counterexample: for the empty token text the reactive guard skips
the parse block entirely and the component renders the neutral
"No maps data to display" card — neither a parsed payload nor an error
card, contrary to the claim's dichotomy. -/
theorem mapsRenderer_empty_text_not_handled :
    isHandled (renderMapsToken (fun _ => none) (fun _ => none)
      (fun _ => none) "") = false := by
  rfl

/-- A window's worth of events all at one instant count fully while that
instant is still inside the window. -/
theorem countIn_replicate (k t now win : Nat) (h : now < t + win) :
    countIn (List.replicate k t) now win = k := by
  simp [countIn, List.filter_replicate, h]

/-- A denial's retry-after value is positive whenever the window length
is. -/
theorem retryAfterIn_pos (events : List Nat) (now win : Nat)
    (h : 0 < win) : 0 < retryAfterIn events now win := by
  unfold retryAfterIn
  split
  next s hs =>
    have hmem := List.min?_mem (fun a b => min_choice a b) hs
    have hin := (List.mem_filter.mp hmem).2
    simp only [decide_eq_true_eq] at hin
    omega
  next => exact h

/-- Running `n` further same-instant requests of one identity whose log
already holds `k` same-instant events admits all of them while every
ceiling still has room, extending only that identity's log. -/
theorem admitRun_all_allowed (cfg : RateLimitConfig) (id : String)
    (t : Nat) (n : Nat) :
    ∀ (k : Nat) (log : RateLimitLog), log id = List.replicate k t →
    k + n ≤ cfg.perMinute → k + n ≤ cfg.perHour → k + n ≤ cfg.perDay →
    (admitRun cfg id t n log).1 = true ∧
    (admitRun cfg id t n log).2 id = List.replicate (k + n) t ∧
    ∀ j, j ≠ id → (admitRun cfg id t n log).2 j = log j := by
  induction n with
  | zero => exact fun k log hid _ _ _ => ⟨rfl, by simpa using hid, fun j _ => rfl⟩
  | succ n ih =>
    intro k log hid hm hh hd
    have hcm : countIn (log id) t minuteWindow = k := by
      rw [hid]; exact countIn_replicate k t t minuteWindow (by unfold minuteWindow; omega)
    have hch : countIn (log id) t hourWindow = k := by
      rw [hid]; exact countIn_replicate k t t hourWindow (by unfold hourWindow; omega)
    have hcd : countIn (log id) t dayWindow = k := by
      rw [hid]; exact countIn_replicate k t t dayWindow (by unfold dayWindow; omega)
    have h1 : ¬ cfg.perMinute ≤ countIn (log id) t minuteWindow := by omega
    have h2 : ¬ cfg.perHour ≤ countIn (log id) t hourWindow := by omega
    have h3 : ¬ cfg.perDay ≤ countIn (log id) t dayWindow := by omega
    have hstep : admitRun cfg id t (n + 1) log =
        admitRun cfg id t n (Function.update log id (t :: log id)) := by
      simp [admitRun, admitRequest, h1, h2, h3]
    rw [hstep]
    have hid' : Function.update log id (t :: log id) id =
        List.replicate (k + 1) t := by
      rw [Function.update_same, hid]; rfl
    obtain ⟨ha, hb, hc⟩ := ih (k + 1) (Function.update log id (t :: log id))
      hid' (by omega) (by omega) (by omega)
    refine ⟨ha, by rw [hb]; congr 1; omega, fun j hj => ?_⟩
    rw [hc j hj, Function.update_noteq hj]

/-- C5: a request is denied iff at least one window is at capacity, every
denial carries a positive retry-after; a fresh identity admitted exactly
`perMinute` times within one minute has its next same-window request
denied on the minute scope with retry-after `t + 60 - now > 0`; and a
different identity in the same window is still admitted. -/
theorem rateLimiter_enforcement (cfg : RateLimitConfig) (id id2 : String)
    (t now : Nat) (h0 : 0 < cfg.perMinute)
    (hmh : cfg.perMinute ≤ cfg.perHour) (hmd : cfg.perMinute ≤ cfg.perDay)
    (hlo : t ≤ now) (hhi : now < t + minuteWindow) (hne : id2 ≠ id) :
    (∀ (log : RateLimitLog) (idq : String) (nowq : Nat),
      ((admitRequest cfg log idq nowq).1 = .allowed ↔
        ¬(cfg.perMinute ≤ countIn (log idq) nowq minuteWindow ∨
          cfg.perHour ≤ countIn (log idq) nowq hourWindow ∨
          cfg.perDay ≤ countIn (log idq) nowq dayWindow)) ∧
      ∀ s r, (admitRequest cfg log idq nowq).1 = .denied s r → 0 < r) ∧
    (admitRun cfg id t cfg.perMinute emptyLog).1 = true ∧
    (admitRequest cfg (admitRun cfg id t cfg.perMinute emptyLog).2 id now).1 =
      .denied .minute (t + minuteWindow - now) ∧
    0 < t + minuteWindow - now ∧
    (admitRequest cfg (admitRun cfg id t cfg.perMinute emptyLog).2 id2 now).1 =
      .allowed := by
  obtain ⟨hrun, hlog, hother⟩ :=
    admitRun_all_allowed cfg id t cfg.perMinute 0 emptyLog rfl
      (by omega) (by omega) (by omega)
  have hlog' : (admitRun cfg id t cfg.perMinute emptyLog).2 id =
      List.replicate cfg.perMinute t := by simpa using hlog
  refine ⟨fun log idq nowq => ⟨?_, ?_⟩, hrun, ?_, ?_, ?_⟩
  · simp only [admitRequest]
    split_ifs with hA hB hC <;> simp_all
  · intro s r hr
    simp only [admitRequest] at hr
    split_ifs at hr with hA hB hC
    all_goals simp at hr
    · obtain ⟨-, hr⟩ := hr; exact hr ▸ retryAfterIn_pos _ _ _ (by decide)
    · obtain ⟨-, hr⟩ := hr; exact hr ▸ retryAfterIn_pos _ _ _ (by decide)
    · obtain ⟨-, hr⟩ := hr; exact hr ▸ retryAfterIn_pos _ _ _ (by decide)
  · have hcnt : countIn ((admitRun cfg id t cfg.perMinute emptyLog).2 id)
        now minuteWindow = cfg.perMinute := by
      rw [hlog']; exact countIn_replicate _ _ _ _ hhi
    have hretry : retryAfterIn
        ((admitRun cfg id t cfg.perMinute emptyLog).2 id) now minuteWindow =
        t + minuteWindow - now := by
      rw [hlog']
      unfold retryAfterIn
      rw [show (List.replicate cfg.perMinute t).filter
            (fun s => decide (now < s + minuteWindow)) =
          List.replicate cfg.perMinute t from by
        simp [List.filter_replicate, hhi]]
      rw [List.min?_replicate_of_pos (min_self t) h0]
    simp [admitRequest, hcnt, hretry]
  · unfold minuteWindow at hhi ⊢; omega
  · have hid2 : (admitRun cfg id t cfg.perMinute emptyLog).2 id2 = [] :=
      hother id2 hne
    have hz : ∀ win, countIn
        ((admitRun cfg id t cfg.perMinute emptyLog).2 id2) now win = 0 := by
      intro win; rw [hid2]; rfl
    have c1 : ¬ cfg.perMinute ≤ countIn
        ((admitRun cfg id t cfg.perMinute emptyLog).2 id2) now minuteWindow := by
      rw [hz]; omega
    have c2 : ¬ cfg.perHour ≤ countIn
        ((admitRun cfg id t cfg.perMinute emptyLog).2 id2) now hourWindow := by
      rw [hz]; omega
    have c3 : ¬ cfg.perDay ≤ countIn
        ((admitRun cfg id t cfg.perMinute emptyLog).2 id2) now dayWindow := by
      rw [hz]; omega
    simp [admitRequest, c1, c2, c3]

/-- C5 witness: the spec's 60-per-minute scenario — 60 requests from one
identity at second 0 are all admitted, the 61st at second 30 is denied on
the minute window with retry-after 30, and a different identity is still
admitted. -/
theorem rateLimiter_enforcement_witness :
    (admitRun ⟨60, 1000, 5000⟩ "alice" 0 60 emptyLog).1 = true ∧
    (admitRequest ⟨60, 1000, 5000⟩
        (admitRun ⟨60, 1000, 5000⟩ "alice" 0 60 emptyLog).2 "alice" 30).1 =
      .denied .minute 30 ∧
    (admitRequest ⟨60, 1000, 5000⟩
        (admitRun ⟨60, 1000, 5000⟩ "alice" 0 60 emptyLog).2 "bob" 30).1 =
      .allowed := by
  obtain ⟨-, h2, h3, -, h5⟩ :=
    rateLimiter_enforcement ⟨60, 1000, 5000⟩ "alice" "bob" 0 30
      (by decide) (by decide) (by decide) (by decide) (by decide) (by decide)
  exact ⟨h2, by simpa [minuteWindow] using h3, h5⟩

/-- Consecutive failures from a CLOSED state open the breaker exactly when
the count reaches the configured threshold, stamping `opened_at` with the
failure time. -/
theorem failN_reaches_open (cfg : CircuitConfig) (t : Nat) :
    ∀ n k, 0 < n → k + n = cfg.failureThreshold →
    failN cfg t n
        { status := .closed, consecutiveFailures := k, openedAt := none,
          trialInFlight := false } =
      { status := .opened, consecutiveFailures := cfg.failureThreshold,
        openedAt := some t, trialInFlight := false } := by
  intro n
  induction n with
  | zero => intro k h0 _; omega
  | succ n ih =>
    intro k _ hsum
    by_cases hn : n = 0
    · subst hn
      have hth : cfg.failureThreshold ≤ k + 1 := by omega
      simp [failN, onFailure, hth]
      omega
    · have hth : ¬ cfg.failureThreshold ≤ k + 1 := by omega
      have hstep : failN cfg t (n + 1)
          { status := .closed, consecutiveFailures := k, openedAt := none,
            trialInFlight := false } =
          failN cfg t n
          { status := .closed, consecutiveFailures := k + 1, openedAt := none,
            trialInFlight := false } := by
        simp [failN, onFailure, hth]
      rw [hstep]
      exact ih (k + 1) (by omega) (by omega)

/-- C6: the circuit-breaker state machine — after K consecutive failures
the breaker is OPEN with `opened_at` stamped; a call before the recovery
timeout is rejected with zero upstream attempts; the first call after the
timeout proceeds as the single trial (HALF_OPEN, `trial_in_flight` set)
while a concurrent call during the trial is rejected as if OPEN; a trial
success returns to CLOSED with `consecutive_failures = 0`; a trial failure
reopens with a fresh `opened_at`. -/
theorem circuitBreaker_state_machine (cfg : CircuitConfig)
    (t now1 now2 now3 : Nat) (hK : 0 < cfg.failureThreshold)
    (h1 : now1 < t + cfg.recoveryTimeout)
    (h2 : t + cfg.recoveryTimeout ≤ now2) :
    failN cfg t cfg.failureThreshold initialBreaker =
      { status := .opened, consecutiveFailures := cfg.failureThreshold,
        openedAt := some t, trialInFlight := false } ∧
    runCall cfg (failN cfg t cfg.failureThreshold initialBreaker) now1
        true =
      ({ status := .opened, consecutiveFailures := cfg.failureThreshold,
         openedAt := some t, trialInFlight := false }, 0, false) ∧
    beforeCall cfg
        { status := .opened, consecutiveFailures := cfg.failureThreshold,
          openedAt := some t, trialInFlight := false } now2 =
      (.proceed true,
       { status := .halfOpen, consecutiveFailures := cfg.failureThreshold,
         openedAt := some t, trialInFlight := true }) ∧
    beforeCall cfg
        { status := .halfOpen, consecutiveFailures := cfg.failureThreshold,
          openedAt := some t, trialInFlight := true } now2 =
      (.rejectOpen,
       { status := .halfOpen, consecutiveFailures := cfg.failureThreshold,
         openedAt := some t, trialInFlight := true }) ∧
    onSuccess
        { status := .halfOpen, consecutiveFailures := cfg.failureThreshold,
          openedAt := some t, trialInFlight := true } =
      initialBreaker ∧
    onFailure cfg
        { status := .halfOpen, consecutiveFailures := cfg.failureThreshold,
          openedAt := some t, trialInFlight := true } now3 =
      { status := .opened, consecutiveFailures := cfg.failureThreshold + 1,
        openedAt := some now3, trialInFlight := false } := by
  have hopen : failN cfg t cfg.failureThreshold initialBreaker =
      { status := .opened, consecutiveFailures := cfg.failureThreshold,
        openedAt := some t, trialInFlight := false } := by
    simpa [initialBreaker] using
      failN_reaches_open cfg t cfg.failureThreshold 0 hK (by omega)
  have hno : ¬ t + cfg.recoveryTimeout ≤ now1 := by omega
  refine ⟨hopen, ?_, ?_, ?_, rfl, rfl⟩
  · rw [hopen]; simp [runCall, beforeCall, hno]
  · simp [beforeCall, h2]
  · simp [beforeCall]

/-- C6 witness: a 5-failure / 30-second configuration run through the
whole cycle at concrete times. -/
theorem circuitBreaker_state_machine_witness :
    runCall ⟨5, 30⟩ (failN ⟨5, 30⟩ 100 5 initialBreaker) 120 true =
      ({ status := .opened, consecutiveFailures := 5,
         openedAt := some 100, trialInFlight := false }, 0, false) ∧
    beforeCall ⟨5, 30⟩
        { status := .opened, consecutiveFailures := 5,
          openedAt := some 100, trialInFlight := false } 130 =
      (.proceed true,
       { status := .halfOpen, consecutiveFailures := 5,
         openedAt := some 100, trialInFlight := true }) ∧
    onSuccess
        { status := .halfOpen, consecutiveFailures := 5,
          openedAt := some 100, trialInFlight := true } = initialBreaker := by
  obtain ⟨-, ha, hb, -, hc, -⟩ :=
    circuitBreaker_state_machine ⟨5, 30⟩ 100 120 130 200
      (by decide) (by decide) (by decide)
  exact ⟨ha, hb, hc⟩

/-- Splitting a separator-free list yields the singleton. -/
theorem splitOnChar_no_sep (sep : Char) (l : List Char) (h : sep ∉ l) :
    splitOnChar sep l = [l] := by
  induction l with
  | nil => rfl
  | cons c cs ih =>
    have hc : ¬ c = sep := fun hcs => h (hcs ▸ List.mem_cons_self c cs)
    have hcs : sep ∉ cs := fun hin => h (List.mem_cons_of_mem c hin)
    simp [splitOnChar, hc, ih hcs]

/-- Splitting at the first separator occurrence peels off the prefix. -/
theorem splitOnChar_append (sep : Char) (l1 l2 : List Char)
    (h : sep ∉ l1) :
    splitOnChar sep (l1 ++ sep :: l2) = l1 :: splitOnChar sep l2 := by
  induction l1 with
  | nil => simp [splitOnChar]
  | cons c cs ih =>
    have hc : ¬ c = sep := fun hcs => h (hcs ▸ List.mem_cons_self c cs)
    have hcs : sep ∉ cs := fun hin => h (List.mem_cons_of_mem c hin)
    simp only [List.cons_append, splitOnChar, hc, if_false]
    rw [show cs.append (sep :: l2) = cs ++ sep :: l2 from rfl, ih hcs]

/-- Dropping leading whitespace from a whitespace-free list is the
identity. -/
theorem dropWhile_ws_eq_self (l : List Char)
    (h : ∀ c ∈ l, isWs c = false) : l.dropWhile isWs = l := by
  cases l with
  | nil => rfl
  | cons c cs => simp [List.dropWhile_cons, h c (List.mem_cons_self c cs)]

/-- Trimming a whitespace-free list is the identity. -/
theorem trimChars_eq_self (l : List Char)
    (h : ∀ c ∈ l, isWs c = false) : trimChars l = l := by
  unfold trimChars
  rw [dropWhile_ws_eq_self l h,
    dropWhile_ws_eq_self l.reverse (fun c hc => h c (List.mem_reverse.mp hc)),
    List.reverse_reverse]

/-- A digit character round-trips through `charDigit?`. -/
theorem charDigit_digitChar (d : Nat) (h : d < 10) :
    charDigit? (digitChar d) = some d := by
  interval_cases d <;> decide

/-- Digit characters are not separators, signs, dots or whitespace. -/
theorem digitChar_not_special (d : Nat) (h : d < 10) :
    digitChar d ≠ ',' ∧ digitChar d ≠ '.' ∧ digitChar d ≠ '-' ∧
    isWs (digitChar d) = false := by
  interval_cases d <;> exact ⟨by decide, by decide, by decide, by decide⟩

/-- Every character of a rendered natural number is a digit character. -/
theorem natToChars_mem (x : Nat) (c : Char) (hc : c ∈ natToChars x) :
    ∃ d, d < 10 ∧ c = digitChar d := by
  unfold natToChars at hc
  by_cases hx : x = 0
  · simp [hx] at hc
    exact ⟨0, by omega, by rw [hc]; rfl⟩
  · simp only [hx, if_false, List.mem_reverse, List.mem_map] at hc
    obtain ⟨d, hd, rfl⟩ := hc
    exact ⟨d, Nat.digits_lt_base (by norm_num) hd, rfl⟩

/-- Every character of a `toFixed(6)` rendering is a digit, a dot or a
minus sign — never a comma and never whitespace. -/
theorem fixed6Chars_mem (q : ℚ) (c : Char) (hc : c ∈ fixed6Chars q) :
    c ≠ ',' ∧ isWs c = false := by
  have hbody : ∀ x ∈ natToChars ((round6 |q|).toNat / 1000000) ++
      '.' :: padLeftZeros 6 (natToChars ((round6 |q|).toNat % 1000000)),
      x ≠ ',' ∧ isWs x = false := by
    intro x hx
    rcases List.mem_append.mp hx with hx | hx
    · obtain ⟨d, hd, rfl⟩ := natToChars_mem _ x hx
      exact ⟨(digitChar_not_special d hd).1, (digitChar_not_special d hd).2.2.2⟩
    · rcases List.mem_cons.mp hx with rfl | hx
      · exact ⟨by decide, by decide⟩
      · unfold padLeftZeros at hx
        rcases List.mem_append.mp hx with hx | hx
        · rw [List.eq_of_mem_replicate hx]
          exact ⟨by decide, by decide⟩
        · obtain ⟨d, hd, rfl⟩ := natToChars_mem _ x hx
          exact ⟨(digitChar_not_special d hd).1,
            (digitChar_not_special d hd).2.2.2⟩
  unfold fixed6Chars at hc
  by_cases hq : q < 0
  · simp only [hq, if_true] at hc
    rcases List.mem_cons.mp hc with rfl | hc
    · exact ⟨by decide, by decide⟩
    · exact hbody c hc
  · simp only [hq, if_false] at hc
    exact hbody c hc

/-- The decimal rendering of a natural number parses back to it. -/
theorem parseDigits_natToChars (n : Nat) :
    parseDigits (natToChars n) = some n := by
  by_cases hn : n = 0
  · subst hn; decide
  · unfold natToChars parseDigits
    have hne : ((Nat.digits 10 n).map digitChar).reverse.isEmpty = false := by
      simp [List.isEmpty_iff, Nat.digits_ne_nil_iff_ne_zero.mpr hn]
    have hall : ((Nat.digits 10 n).map digitChar).reverse.all
        (fun c => (charDigit? c).isSome) = true := by
      simp only [List.all_eq_true, List.mem_reverse, List.mem_map]
      rintro c ⟨d, hd, rfl⟩
      rw [charDigit_digitChar d (Nat.digits_lt_base (by norm_num) hd)]
      rfl
    simp only [hn, if_false, hne, Bool.false_eq_true, hall, if_true]
    have hmap : ((((Nat.digits 10 n).map digitChar).reverse.map
        fun c => (charDigit? c).getD 0).reverse) = Nat.digits 10 n := by
      rw [List.map_reverse, List.reverse_reverse, List.map_map]
      conv_rhs => rw [← List.map_id (Nat.digits 10 n)]
      exact List.map_congr_left fun d hd => by
        simp [Function.comp,
          charDigit_digitChar d (Nat.digits_lt_base (by norm_num) hd)]
    rw [hmap, Nat.ofDigits_digits]

/-- A run of zero digits contributes nothing. -/
theorem ofDigits_replicate_zero (j : Nat) :
    Nat.ofDigits 10 (List.replicate j 0) = 0 := by
  induction j with
  | zero => rfl
  | succ j ih => simp [List.replicate_succ, Nat.ofDigits_cons, ih]

/-- Leading zeros do not change the parsed value. -/
theorem parseDigits_replicate_zero_append (j : Nat) (l : List Char)
    (n : Nat) (h : parseDigits l = some n) :
    parseDigits (List.replicate j '0' ++ l) = some n := by
  rcases l with _ | ⟨c, cs⟩
  · simp [parseDigits] at h
  by_cases ha : (c :: cs).all (fun x => (charDigit? x).isSome) = true
  case neg => simp [parseDigits, ha] at h
  have hval : Nat.ofDigits 10 (((c :: cs).map
      fun x => (charDigit? x).getD 0).reverse) = n := by
    simpa [parseDigits, ha] using h
  have hne : (List.replicate j '0' ++ c :: cs).isEmpty = false := by
    simp [List.isEmpty_iff]
  have hall : (List.replicate j '0' ++ c :: cs).all
      (fun x => (charDigit? x).isSome) = true := by
    rw [List.all_append]
    simp only [ha, Bool.and_true, List.all_eq_true]
    intro x hx
    rw [List.eq_of_mem_replicate hx]
    rfl
  unfold parseDigits
  simp only [hne, Bool.false_eq_true, if_false, hall, if_true]
  rw [show ((List.replicate j '0' ++ c :: cs).map
        fun x => (charDigit? x).getD 0) =
      List.replicate j 0 ++ (c :: cs).map (fun x => (charDigit? x).getD 0)
    from by rw [List.map_append, List.map_replicate]; rfl]
  rw [List.reverse_append, List.reverse_replicate, Nat.ofDigits_append]
  simp only [ofDigits_replicate_zero, Nat.mul_zero, Nat.add_zero]
  simpa using hval

/-- A natural below one million renders in at most six digits. -/
theorem natToChars_len_le (x : Nat) (hx : x < 1000000) :
    (natToChars x).length ≤ 6 := by
  unfold natToChars
  by_cases h0 : x = 0
  · simp [h0]
  · simp only [h0, if_false, List.length_reverse, List.length_map]
    rw [Nat.digits_len 10 x (by norm_num) h0]
    have : Nat.log 10 x < 6 :=
      Nat.log_lt_of_lt_pow h0 (by norm_num at hx ⊢; omega)
    omega

/-- The rendered six-decimal magnitude of `m` parses back to `m / 10^6`
exactly. -/
theorem parseUnsignedQ_fixed (m : Nat) :
    parseUnsignedQ (natToChars (m / 1000000) ++
      '.' :: padLeftZeros 6 (natToChars (m % 1000000))) =
    some ((m : ℚ) / 1000000) := by
  have hdot_ip : '.' ∉ natToChars (m / 1000000) := by
    intro hin
    obtain ⟨d, hd, he⟩ := natToChars_mem _ _ hin
    exact (digitChar_not_special d hd).2.1 he.symm
  have hdot_fp : '.' ∉ padLeftZeros 6 (natToChars (m % 1000000)) := by
    intro hin
    unfold padLeftZeros at hin
    rcases List.mem_append.mp hin with hin | hin
    · simpa using List.eq_of_mem_replicate hin
    · obtain ⟨d, hd, he⟩ := natToChars_mem _ _ hin
      exact (digitChar_not_special d hd).2.1 he.symm
  have hlen : (padLeftZeros 6 (natToChars (m % 1000000))).length = 6 := by
    have := natToChars_len_le (m % 1000000) (Nat.mod_lt m (by norm_num))
    unfold padLeftZeros
    simp only [List.length_append, List.length_replicate]
    omega
  have hfp : parseDigits (padLeftZeros 6 (natToChars (m % 1000000))) =
      some (m % 1000000) :=
    parseDigits_replicate_zero_append _ _ _
      (parseDigits_natToChars (m % 1000000))
  unfold parseUnsignedQ
  rw [splitOnChar_append '.' _ _ hdot_ip, splitOnChar_no_sep '.' _ hdot_fp]
  simp only [parseDigits_natToChars, hfp, hlen]
  have hq : ((m / 1000000 : ℕ) : ℚ) + ((m % 1000000 : ℕ) : ℚ) /
      (10 : ℚ) ^ 6 = (m : ℚ) / 1000000 := by
    have hmod : 1000000 * (m / 1000000) + m % 1000000 = m :=
      Nat.div_add_mod m 1000000
    have hnd : m / 1000000 * 1000000 + m % 1000000 = m := by omega
    have hcast : ((m / 1000000 : ℕ) : ℚ) * 1000000 +
        ((m % 1000000 : ℕ) : ℚ) = (m : ℚ) := by
      exact_mod_cast hnd
    have h6 : (10 : ℚ) ^ 6 = 1000000 := by norm_num
    rw [h6]
    field_simp
    linarith
  simp [hq]

/-- A rendered natural number is never the empty string. -/
theorem natToChars_ne_nil (x : Nat) : natToChars x ≠ [] := by
  unfold natToChars
  by_cases h : x = 0
  · simp [h]
  · simp [h, Nat.digits_ne_nil_iff_ne_zero]

/-- The scaled magnitude rounded by `toFixed(6)` is non-negative. -/
theorem round6_abs_nonneg (q : ℚ) : 0 ≤ round6 |q| := by
  unfold round6
  apply Int.floor_nonneg.mpr
  positivity

/-- `parseFloat` recovers the exact value denoted by `toFixed(6)`. -/
theorem parseFloatQ_fixed6 (q : ℚ) :
    parseFloatQ ⟨fixed6Chars q⟩ = .num (toFixed6Val q) := by
  have hm : (((round6 |q|).toNat : ℚ)) = ((round6 |q| : ℤ) : ℚ) := by
    exact_mod_cast Int.toNat_of_nonneg (round6_abs_nonneg q)
  have hpu := parseUnsignedQ_fixed (round6 |q|).toNat
  by_cases hq : q < 0
  · have hdata : fixed6Chars q =
        '-' :: (natToChars ((round6 |q|).toNat / 1000000) ++
          '.' :: padLeftZeros 6 (natToChars ((round6 |q|).toNat % 1000000))) := by
      unfold fixed6Chars
      simp [hq]
    unfold parseFloatQ
    rw [show (⟨fixed6Chars q⟩ : String).data = fixed6Chars q from rfl, hdata]
    simp only [hpu]
    unfold toFixed6Val
    rw [if_pos hq, hm]
  · have hdata : fixed6Chars q =
        natToChars ((round6 |q|).toNat / 1000000) ++
          '.' :: padLeftZeros 6 (natToChars ((round6 |q|).toNat % 1000000)) := by
      unfold fixed6Chars
      simp [hq]
    obtain ⟨c, cs, hcc⟩ : ∃ c cs,
        natToChars ((round6 |q|).toNat / 1000000) = c :: cs := by
      rcases h : natToChars ((round6 |q|).toNat / 1000000) with _ | ⟨c, cs⟩
      · exact absurd h (natToChars_ne_nil _)
      · exact ⟨c, cs, rfl⟩
    have hcne : c ≠ '-' := by
      obtain ⟨d, hd, he⟩ := natToChars_mem _ c
        (hcc ▸ List.mem_cons_self c cs)
      exact he ▸ (digitChar_not_special d hd).2.2.1
    unfold parseFloatQ
    rw [show (⟨fixed6Chars q⟩ : String).data = fixed6Chars q from rfl]
    split
    next rest heq =>
      rw [hdata, hcc, List.cons_append] at heq
      injection heq with h1 _
      exact absurd h1 hcne
    next l hnm =>
      rw [hdata, hpu]
      show JsNum.num ((((round6 |q|).toNat : ℚ)) / 1000000) =
        JsNum.num (toFixed6Val q)
      rw [hm]
      unfold toFixed6Val
      rw [if_neg hq]

/-- Rounding to the nearest integer moves a value by at most one half. -/
theorem floor_half_bound (x : ℚ) : |((⌊x + 1 / 2⌋ : ℤ) : ℚ) - x| ≤ 1 / 2 := by
  have h1 : ((⌊x + 1 / 2⌋ : ℤ) : ℚ) ≤ x + 1 / 2 := Int.floor_le _
  have h2 : x + 1 / 2 - 1 < ((⌊x + 1 / 2⌋ : ℤ) : ℚ) := Int.sub_one_lt_floor _
  rw [abs_le]
  constructor <;> linarith

/-- The value denoted by `toFixed(6)` is within half an ulp (`5e-7`) of
the original. -/
theorem toFixed6Val_close (q : ℚ) : |toFixed6Val q - q| ≤ 1 / 2000000 := by
  have hb := floor_half_bound (|q| * 1000000)
  rw [abs_le] at hb
  unfold toFixed6Val round6
  by_cases hq : q < 0
  · rw [if_pos hq]
    rw [abs_of_neg hq] at *
    rw [abs_le]
    constructor <;> linarith
  · rw [if_neg hq]
    rw [abs_of_nonneg (not_lt.mp hq)] at *
    rw [abs_le]
    constructor <;> linarith

/-- `toFixed(6)` never enlarges a bound given by a whole number. -/
theorem toFixed6Val_abs_le (q : ℚ) (n : ℕ) (h : |q| ≤ n) :
    |toFixed6Val q| ≤ n := by
  have h0 : (0 : ℚ) ≤ ((round6 |q| : ℤ) : ℚ) := by
    exact_mod_cast round6_abs_nonneg q
  have h1 : ((round6 |q| : ℤ) : ℚ) ≤ |q| * 1000000 + 1 / 2 := Int.floor_le _
  have hmul : |q| * 1000000 ≤ (n : ℚ) * 1000000 :=
    mul_le_mul_of_nonneg_right h (by norm_num)
  have h2 : ((round6 |q| : ℤ) : ℚ) < (n : ℚ) * 1000000 + 1 := by linarith
  have h3 : round6 |q| < (n : ℤ) * 1000000 + 1 := by exact_mod_cast h2
  have h4 : round6 |q| ≤ (n : ℤ) * 1000000 := by omega
  have hle : ((round6 |q| : ℤ) : ℚ) ≤ (n : ℚ) * 1000000 := by
    exact_mod_cast h4
  have habs : |toFixed6Val q| = ((round6 |q| : ℤ) : ℚ) / 1000000 := by
    unfold toFixed6Val
    by_cases hq : q < 0
    · rw [if_pos hq, abs_neg, abs_of_nonneg (div_nonneg h0 (by norm_num))]
    · rw [if_neg hq, abs_of_nonneg (div_nonneg h0 (by norm_num))]
  rw [habs, div_le_iff₀ (by norm_num : (0 : ℚ) < 1000000)]
  linarith

/-- C8: for every coordinate pair accepted by `validateCoordinates`,
`formatCoordinates` succeeds and `parseCoordinates` of its output returns
a non-null pair of numbers, each the six-decimal rounding of the original
and hence within `5e-7 = 1/2000000` of it (the rounded values stay inside
the valid ranges, so the parser's re-validation never rejects them). -/
theorem formatCoordinates_parseCoordinates_roundtrip (la lb : ℚ)
    (h : validateCoordinates (.num la) (.num lb) = true) :
    formatCoordinates (.num la) (.num lb) =
      .ok (⟨fixed6Chars la ++ ',' :: fixed6Chars lb⟩ : String) ∧
    parseCoordinates ⟨fixed6Chars la ++ ',' :: fixed6Chars lb⟩ =
      some (.num (toFixed6Val la), .num (toFixed6Val lb)) ∧
    |toFixed6Val la - la| ≤ 1 / 2000000 ∧
    |toFixed6Val lb - lb| ≤ 1 / 2000000 := by
  have hr : -90 ≤ la ∧ la ≤ 90 ∧ -180 ≤ lb ∧ lb ≤ 180 := by
    simpa [validateCoordinates, JsNum.jsLe, JsNum.isNaN, and_assoc] using h
  obtain ⟨h90l, h90r, h180l, h180r⟩ := hr
  have hala : |toFixed6Val la| ≤ (90 : ℕ) :=
    toFixed6Val_abs_le la 90 (abs_le.mpr ⟨by exact_mod_cast h90l,
      by exact_mod_cast h90r⟩)
  have halb : |toFixed6Val lb| ≤ (180 : ℕ) :=
    toFixed6Val_abs_le lb 180 (abs_le.mpr ⟨by exact_mod_cast h180l,
      by exact_mod_cast h180r⟩)
  rw [abs_le] at hala halb
  have hvparsed : validateCoordinates (.num (toFixed6Val la))
      (.num (toFixed6Val lb)) = true := by
    simp only [validateCoordinates, JsNum.jsLe, JsNum.isNaN,
      Bool.and_eq_true, decide_eq_true_eq, Bool.not_false, and_true]
    refine ⟨⟨⟨?_, ?_⟩, ?_⟩, ?_⟩ <;>
      [exact_mod_cast hala.1; exact_mod_cast hala.2;
       exact_mod_cast halb.1; exact_mod_cast halb.2]
  refine ⟨?_, ?_, toFixed6Val_close la, toFixed6Val_close lb⟩
  · unfold formatCoordinates
    rw [h]
    show Except.ok ((⟨fixed6Chars la⟩ ++ "," ++ ⟨fixed6Chars lb⟩ :
      String)) = _
    congr 1
    apply String.ext
    show (fixed6Chars la ++ [','] ) ++ fixed6Chars lb =
      fixed6Chars la ++ ',' :: fixed6Chars lb
    simp
  · have hnc1 : ',' ∉ fixed6Chars la := fun hin =>
      (fixed6Chars_mem la ',' hin).1 rfl
    have hnc2 : ',' ∉ fixed6Chars lb := fun hin =>
      (fixed6Chars_mem lb ',' hin).1 rfl
    have hsplit : splitOnChar ','
        (fixed6Chars la ++ ',' :: fixed6Chars lb) =
        [fixed6Chars la, fixed6Chars lb] := by
      rw [splitOnChar_append ',' _ _ hnc1, splitOnChar_no_sep ',' _ hnc2]
    have htrim1 : jsTrim ⟨fixed6Chars la⟩ = ⟨fixed6Chars la⟩ := by
      unfold jsTrim
      rw [show (⟨fixed6Chars la⟩ : String).data = fixed6Chars la from rfl,
        trimChars_eq_self _ (fun c hc => (fixed6Chars_mem la c hc).2)]
    have htrim2 : jsTrim ⟨fixed6Chars lb⟩ = ⟨fixed6Chars lb⟩ := by
      unfold jsTrim
      rw [show (⟨fixed6Chars lb⟩ : String).data = fixed6Chars lb from rfl,
        trimChars_eq_self _ (fun c hc => (fixed6Chars_mem lb c hc).2)]
    have hsne : (⟨fixed6Chars la ++ ',' :: fixed6Chars lb⟩ : String) ≠ "" := by
      intro he
      have : fixed6Chars la ++ ',' :: fixed6Chars lb = [] :=
        congrArg String.data he
      simp at this
    unfold parseCoordinates
    rw [if_neg hsne]
    rw [show (⟨fixed6Chars la ++ ',' :: fixed6Chars lb⟩ : String).data =
      fixed6Chars la ++ ',' :: fixed6Chars lb from rfl]
    rw [hsplit]
    simp only [List.map_cons, List.map_nil, htrim1, htrim2,
      parseFloatQ_fixed6]
    simp [JsNum.isNaN, hvparsed]

/-- C8 witness: the round trip evaluated at the concrete pair
`(-6, 107)`. -/
theorem formatCoordinates_parseCoordinates_roundtrip_witness :
    validateCoordinates (.num (-6)) (.num 107) = true ∧
    parseCoordinates ⟨fixed6Chars (-6) ++ ',' :: fixed6Chars 107⟩ =
      some (.num (toFixed6Val (-6)), .num (toFixed6Val 107)) :=
  ⟨by decide,
   (formatCoordinates_parseCoordinates_roundtrip (-6) 107 (by decide)).2.1⟩

/-- C10 witness: a place with a fine name/address but `lat = 999` is still
displayed, with the unavailable-location badge. -/
theorem placeResults_display_invariant_witness :
    stubBadPlace ∈ validPlaces [stubGoodPlace, stubBadPlace] ∧
    displayBadge stubBadPlace = .unavailable :=
  placeResults_display_invariant.2 [stubGoodPlace, stubBadPlace]
    stubBadPlace (by decide) (by decide) (by decide)

end MapsGateway
